import Mathlib

/-!
Verification of the parallel record-processing engine of the
`seq_io_parallel_index` repository against its natural-language specification.

The authoritative code is `src/macro_impl.rs` (single-stream pipeline) and
`src/macro_paired_impl.rs` (paired-stream pipeline); `src/processor.rs` and
`src/record.rs` define the processor and record contracts.  (`src/fasta.rs`
and `src/error.rs` are not declared in `src/lib.rs` and are dead variants.)

Shallow embedding conventions:

* A call to the external parser (`read_fn`, wrapping `read_record_set`)
  returns `Option<Result<()>>` in Rust.  A source is modelled by the list of
  its successive `Some` results, each `Except.ok ()` (record set filled) or
  `Except.error e` (hard parse error); once the list is exhausted every
  further call returns `None` (clean end of input).  The reader never calls
  `read_fn` again after observing `None` or after propagating an error, so
  this representation covers every observable behaviour.
* The channel is modelled by the list of tokens the reader pushes (in order)
  and, on the worker side, by the list of tokens a worker successfully
  receives (the list ending corresponds to the channel being closed).
* Worker-side callbacks on the processor are modelled as an explicit record
  of state-transition functions returning `Except`; the worker functions
  return the trace of callback invocations together with their own result.
-/

namespace SeqIOParallel

/-- One element of the hand-off queue: `some idx` publishes slot `idx`,
`none` is a termination token (`Option<usize>` in the Rust code). -/
abbrev Token := Option Nat

/-- The loop body of `run_reader_thread` (`src/macro_impl.rs` lines 39-53).
Arguments: `len` is `record_sets.len()`, `numThreads` is `num_threads`,
then the current `current_idx` and the remaining source steps.
Returns the tokens sent on the channel (in order) and the function result.

* While a step `Except.ok ()` is available: the slot is locked, filled,
  unlocked, `some current_idx` is sent, and `current_idx` advances to
  `(current_idx + 1) % len` (lines 42-49).
* On a step `Except.error e`: `result?` (line 45) returns the error from
  `run_reader_thread` at once, so no further token (in particular no
  termination token) is sent.
* When the source is exhausted (`read_fn` returns `None`): the loop breaks
  (line 51) and `None` is sent `num_threads` times (lines 56-58), then the
  function returns `Ok(())` (line 60). -/
def readerLoop (len numThreads : Nat) :
    Nat → List (Except ε Unit) → List Token × Except ε Unit
  | _, [] => (List.replicate numThreads none, Except.ok ())
  | idx, step :: rest =>
    match step with
    | Except.ok _ =>
      let r := readerLoop len numThreads ((idx + 1) % len) rest
      (some idx :: r.1, r.2)
    | Except.error e => ([], Except.error e)

/-- `run_reader_thread` from `src/macro_impl.rs` (lines 29-61): the loop
starts at `current_idx = 0` (line 39). -/
def run_reader_thread (recordSetsLen numThreads : Nat)
    (steps : List (Except ε Unit)) : List Token × Except ε Unit :=
  readerLoop recordSetsLen numThreads 0 steps

/-- The loop body of `run_paired_reader_thread` (`src/macro_paired_impl.rs`
lines 43-63).  Per cycle the reader calls `read_fn` on both sources (lines
48-51) and matches on the pair of results:

* `(Some(result1), Some(result2))`: `result1?` then `result2?` propagate a
  hard error immediately (returning with no further token sent); otherwise
  `some current_idx` is sent and the index advances (lines 52-60).
* Any other combination (either source at end of input, regardless of what
  the other returned): the loop breaks (line 61), `None` is sent
  `num_threads` times (lines 66-68) and the function returns `Ok(())`.

The first pattern below requires both step lists to be non-empty, exactly
mirroring the `(Some(..), Some(..))` match arm; note that an error result
from one source is discarded when the other source is at end of input,
as in the Rust `_ => break` arm. -/
def pairedReaderLoop (len numThreads : Nat) :
    Nat → List (Except ε Unit) → List (Except ε Unit) → List Token × Except ε Unit
  | _, [], _ => (List.replicate numThreads none, Except.ok ())
  | idx, s1 :: rest1, l2 =>
    match l2 with
    | [] => (List.replicate numThreads none, Except.ok ())
    | s2 :: rest2 =>
      match s1 with
      | Except.error e => ([], Except.error e)
      | Except.ok _ =>
        match s2 with
        | Except.error e => ([], Except.error e)
        | Except.ok _ =>
          let r := pairedReaderLoop len numThreads ((idx + 1) % len) rest1 rest2
          (some idx :: r.1, r.2)

/-- `run_paired_reader_thread` from `src/macro_paired_impl.rs` (lines 32-71):
the loop starts at `current_idx = 0` (line 43). -/
def run_paired_reader_thread (recordSetsLen numThreads : Nat)
    (steps1 steps2 : List (Except ε Unit)) : List Token × Except ε Unit :=
  pairedReaderLoop recordSetsLen numThreads 0 steps1 steps2

/-- The slot indices published on the channel, in order (the `some` tokens). -/
def publishedIdxs (tokens : List Token) : List Nat :=
  tokens.filterMap id

/-- A source whose every `Some` step succeeded (no hard parse error). -/
def allOk (steps : List (Except ε Unit)) : Bool :=
  steps.all fun s => match s with
    | Except.ok _ => true
    | Except.error _ => false

/-- `create_record_sets` from `src/macro_impl.rs` (lines 16-21): allocates
`num_threads * 2` default-initialized record sets. -/
def create_record_sets (β : Type) [Inhabited β] (num_threads : Nat) : List β :=
  (List.range (num_threads * 2)).map fun _ => default

/-- `create_paired_record_sets` from `src/macro_paired_impl.rs` (lines
19-24): allocates `num_threads * 2` slots, each holding a pair of
default-initialized record sets. -/
def create_paired_record_sets (β : Type) [Inhabited β] (num_threads : Nat) :
    List (β × β) :=
  (List.range (num_threads * 2)).map fun _ => (default, default)

/-- `create_channels` from `src/macro_impl.rs` line 24 and
`src/macro_paired_impl.rs` line 27: `bounded(buffer_size)`.  Modelled by the
capacity of the bounded FIFO it creates. -/
def create_channels (buffer_size : Nat) : Nat :=
  buffer_size

/-- Capacity of the hand-off queue created by `process_parallel`
(`src/macro_impl.rs` line 97: `create_channels(num_threads * 2)`). -/
def process_parallel_queue_capacity (num_threads : Nat) : Nat :=
  create_channels (num_threads * 2)

/-- Capacity of the hand-off queue created by `process_parallel_paired`
(`src/macro_paired_impl.rs` line 110). -/
def process_parallel_paired_queue_capacity (num_threads : Nat) : Nat :=
  create_channels (num_threads * 2)

/-- The thread ids passed to the worker threads spawned by
`process_parallel` (`src/macro_impl.rs` line 118:
`for thread_id in 0..num_threads`). -/
def process_parallel_worker_ids (num_threads : Nat) : List Nat :=
  List.range num_threads

/-- One callback invocation performed by a worker on its processor clone.
For the paired pipeline the same type is used at `α × β` with
`processRecord (r1, r2)` standing for `process_record_pair(r1, r2)`. -/
inductive WorkerEvent (α : Type) where
  | setThreadId (id : Nat)
  | processRecord (r : α)
  | onBatchComplete
  | onThreadComplete
deriving DecidableEq

/-- Whether an event is a `set_thread_id` invocation. -/
def isSetThreadId : WorkerEvent α → Bool
  | WorkerEvent.setThreadId _ => true
  | _ => false

/-- Whether an event is a `process_record` (or `process_record_pair`)
invocation. -/
def isProcessRecord : WorkerEvent α → Bool
  | WorkerEvent.processRecord _ => true
  | _ => false

/-- Whether an event is an `on_batch_complete` invocation. -/
def isOnBatchComplete : WorkerEvent α → Bool
  | WorkerEvent.onBatchComplete => true
  | _ => false

/-- Whether an event is an `on_thread_complete` invocation. -/
def isOnThreadComplete : WorkerEvent α → Bool
  | WorkerEvent.onThreadComplete => true
  | _ => false

/-- A `ParallelProcessor` implementation (`src/processor.rs` lines 5-29),
modelled as explicit state-transition functions on a worker-local state `σ`.
`process_record`, `on_batch_complete` and `on_thread_complete` return
`Result` in Rust; `set_thread_id` is infallible. -/
structure ProcessorModel (σ α ε : Type) where
  process_record : σ → α → Except ε σ
  on_batch_complete : σ → Except ε σ
  on_thread_complete : σ → Except ε σ
  set_thread_id : σ → Nat → σ

/-- A `PairedParallelProcessor` implementation (`src/processor.rs` lines
32-60).  The trait also offers `on_thread_complete`, `set_thread_id` and
`get_thread_id`; whether the engine ever invokes them is exactly what some
of the theorems below settle. -/
structure PairedProcessorModel (σ α ε : Type) where
  process_record_pair : σ → α → α → Except ε σ
  on_batch_complete : σ → Except ε σ
  on_thread_complete : σ → Except ε σ
  set_thread_id : σ → Nat → σ

/-- The `process_fn` closure of `process_parallel` (`src/macro_impl.rs`
lines 129-134): `for record in record_set { processor.process_record(record)?; }`.
Returns the invocation trace and the `Result`; on an error the already
performed invocations (including the failing one) remain in the trace. -/
def processBatch (P : ProcessorModel σ α ε) :
    σ → List α → List (WorkerEvent α) × Except ε σ
  | s, [] => ([], Except.ok s)
  | s, r :: rs =>
    match P.process_record s r with
    | Except.ok s2 =>
      let t := processBatch P s2 rs
      (WorkerEvent.processRecord r :: t.1, t.2)
    | Except.error e => ([WorkerEvent.processRecord r], Except.error e)

/-- The `while let Ok(Some(idx)) = rx.recv()` loop of `run_worker_thread`
(`src/macro_impl.rs` lines 76-80) followed by the `on_thread_complete` call
(line 81).  `slots` maps a slot index to the records the slot holds when the
worker drains it; `received` is the sequence of tokens the worker's `recv`
calls return, the end of the list standing for a closed channel.  The loop
exits on the first `none` token or on channel close; either way
`processor.on_thread_complete()?` runs afterwards. -/
def workerLoop (P : ProcessorModel σ α ε) (slots : Nat → List α) :
    σ → List Token → List (WorkerEvent α) × Except ε σ
  | s, some idx :: rest =>
    let t := processBatch P s (slots idx)
    match t.2 with
    | Except.error e => (t.1, Except.error e)
    | Except.ok s2 =>
      match P.on_batch_complete s2 with
      | Except.error e => (t.1 ++ [WorkerEvent.onBatchComplete], Except.error e)
      | Except.ok s3 =>
        let u := workerLoop P slots s3 rest
        (t.1 ++ WorkerEvent.onBatchComplete :: u.1, u.2)
  | s, _ =>
    match P.on_thread_complete s with
    | Except.ok s2 => ([WorkerEvent.onThreadComplete], Except.ok s2)
    | Except.error e => ([WorkerEvent.onThreadComplete], Except.error e)

/-- `run_worker_thread` from `src/macro_impl.rs` (lines 64-83):
`processor.set_thread_id(thread_id)` runs first (line 75), then the receive
loop, then `on_thread_complete` (line 81).  Returns the full invocation
trace and the worker's result (carrying the final processor state). -/
def run_worker_thread (P : ProcessorModel σ α ε) (slots : Nat → List α)
    (s0 : σ) (thread_id : Nat) (received : List Token) :
    List (WorkerEvent α) × Except ε σ :=
  let t := workerLoop P slots (P.set_thread_id s0 thread_id) received
  (WorkerEvent.setThreadId thread_id :: t.1, t.2)

/-- The `process_fn` closure of `process_parallel_paired`
(`src/macro_paired_impl.rs` lines 142-151): the two record sets of the slot
are zipped and `process_record_pair` runs on each position-aligned pair;
excess records of the longer set are never visited. -/
def processPairs (P : PairedProcessorModel σ α ε) :
    σ → List (α × α) → List (WorkerEvent (α × α)) × Except ε σ
  | s, [] => ([], Except.ok s)
  | s, p :: ps =>
    match P.process_record_pair s p.1 p.2 with
    | Except.ok s2 =>
      let t := processPairs P s2 ps
      (WorkerEvent.processRecord p :: t.1, t.2)
    | Except.error e => ([WorkerEvent.processRecord p], Except.error e)

/-- `run_paired_worker_thread` from `src/macro_paired_impl.rs` (lines
74-90): the `while let Ok(Some(idx)) = rx.recv()` loop drains the slot's two
record sets via the zipping `process_fn` and calls `on_batch_complete`; when
the loop exits the function returns `Ok(())` at once — unlike the
single-stream worker it never calls `set_thread_id` (it has no `thread_id`
parameter; the spawn loop at line 132 is `for _ in 0..num_threads`) and
never calls `on_thread_complete`. -/
def run_paired_worker_thread (P : PairedProcessorModel σ α ε)
    (slots : Nat → List α × List α) :
    σ → List Token → List (WorkerEvent (α × α)) × Except ε σ
  | s, some idx :: rest =>
    let t := processPairs P s ((slots idx).1.zip (slots idx).2)
    match t.2 with
    | Except.error e => (t.1, Except.error e)
    | Except.ok s2 =>
      match P.on_batch_complete s2 with
      | Except.error e => (t.1 ++ [WorkerEvent.onBatchComplete], Except.error e)
      | Except.ok s3 =>
        let u := run_paired_worker_thread P slots s3 rest
        (t.1 ++ WorkerEvent.onBatchComplete :: u.1, u.2)
  | s, _ => ([], Except.ok s)

/-- The slot indices a worker consumes from its received token sequence:
the `some` tokens strictly before the first termination token. -/
def consumedIdxs (received : List Token) : List Nat :=
  (received.takeWhile fun t => t.isSome).filterMap id

/-- Concatenation of per-slot event lists, in consumption order. -/
def flatEvents (f : Nat → List β) : List Nat → List β
  | [] => []
  | i :: is => f i ++ flatEvents f is

/-- A concrete error-free `ParallelProcessor`: the state counts
`process_record` invocations. -/
def countingProcessor : ProcessorModel Nat Nat Unit where
  process_record := fun s _ => Except.ok (s + 1)
  on_batch_complete := fun s => Except.ok s
  on_thread_complete := fun s => Except.ok s
  set_thread_id := fun s _ => s

/-- A concrete error-free `PairedParallelProcessor`: the state counts
`process_record_pair` invocations. -/
def countingPairedProcessor : PairedProcessorModel Nat Nat Unit where
  process_record_pair := fun s _ _ => Except.ok (s + 1)
  on_batch_complete := fun s => Except.ok s
  on_thread_complete := fun s => Except.ok s
  set_thread_id := fun s _ => s

/-- Outcome of calling a method that may be a programming-error trap:
either the program halts at once (Rust `unimplemented!`/`panic!`-style
macros) or the call returns a value. -/
inductive CallOutcome (β : Type) where
  | halts (msg : String)
  | value (b : β)
deriving DecidableEq

/-- Whether the call halts the program rather than returning. -/
def haltsImmediately : CallOutcome β → Bool
  | CallOutcome.halts _ => true
  | CallOutcome.value _ => false

/-- The default body of `ParallelProcessor::get_thread_id`
(`src/processor.rs` lines 26-28): the Rust `unimplemented!` invocation with
this message, which aborts the program. -/
def ParallelProcessor_get_thread_id_default : CallOutcome Nat :=
  CallOutcome.halts "Must be implemented by the processor to be used"

/-- The default body of `PairedParallelProcessor::get_thread_id`
(`src/processor.rs` lines 57-59). -/
def PairedParallelProcessor_get_thread_id_default : CallOutcome Nat :=
  CallOutcome.halts "Must be implemented by the processor to be used"

/-- A FASTA record view: header and sequence bytes, no quality concept
(`seq_io::fasta::RefRecord`, as used by `src/record.rs` lines 38-58). -/
structure FastaRefRecord where
  head : List UInt8
  seq : List UInt8
deriving DecidableEq

/-- `MinimalRefRecord::ref_qual` for `seq_io::fasta::RefRecord`
(`src/record.rs` lines 56-58): the body is `&[]` — it returns an empty
byte slice and never halts. -/
def fasta_ref_qual (_r : FastaRefRecord) : CallOutcome (List UInt8) :=
  CallOutcome.value []

/-- A FASTQ record view: header, sequence and quality bytes. -/
structure FastqRefRecord where
  head : List UInt8
  seq : List UInt8
  qual : List UInt8
deriving DecidableEq

/-- `MinimalRefRecord::ref_qual` for `seq_io::fastq::RefRecord`
(`src/record.rs` lines 33-35): returns the record's quality bytes. -/
def fastq_ref_qual (r : FastqRefRecord) : CallOutcome (List UInt8) :=
  CallOutcome.value r.qual

/-!
Interleaved execution of the whole single-stream pipeline
(`process_parallel`, `src/macro_impl.rs` lines 92-153).

To examine claims about what concurrent executions of the pipeline can do,
the pipeline is modelled as a deterministic machine driven by an explicit
schedule: entry `0` of the schedule runs the reader thread for one atomic
step, entry `w + 1` runs worker `w` for one atomic step.  A scheduled thread
whose next action is blocked (full queue for the reader, empty queue for a
worker) simply makes no progress on that tick.

Atomic steps are chosen at the blocking points of the Rust code, which is a
sound coarsening: each coarse step corresponds to running that thread's code
contiguously from one potential blocking point to the next, and every slot
`Mutex` acquired inside a coarse step is released before the step ends, so
at every step boundary all slot locks are free and the modelled schedules
are exactly realizable interleavings of the Rust threads.

* Reader step `fill`: lock the current slot, call `read_record_set`
  (overwriting the slot's contents in place), unlock (lines 42-47; the EOF
  check of line 44 breaks to the termination-token loop).
* Reader step `send`: `tx.send(Some(current_idx))` — enabled only when the
  bounded queue has room (line 48) — then advance the index (line 49).
* Reader step `stop`: one `tx.send(None)` per remaining termination token
  (lines 56-58), equally gated on queue room.
* Worker step: one loop iteration of lines 76-80 — `rx.recv()` (enabled
  only when the queue is non-empty), then lock the slot, run
  `process_record` on every record it currently holds, unlock, and run
  `on_batch_complete`; a `None` token ends the worker.

The input is given as the list of record batches the source parses (the
error-free case), and the processor is modelled as appending each processed
record to the worker's log, which suffices to observe which records are
processed, how many times, and in which order.
-/

/-- What the reader thread does next. -/
inductive RPhase where
  | fill
  | send
  | stop
  | done
deriving DecidableEq

/-- Global state of the scheduled pipeline machine. -/
structure MachineState (α : Type) where
  rSteps : List (List α)
  rIdx : Nat
  rPhase : RPhase
  nonesLeft : Nat
  queue : List Token
  slots : List (List α)
  workers : List (Bool × List α)
deriving DecidableEq

/-- One atomic step of the reader thread (see the overview above). -/
def stepReader (cap : Nat) (st : MachineState α) : MachineState α :=
  match st.rPhase with
  | RPhase.fill =>
    match st.rSteps with
    | [] => { st with rPhase := RPhase.stop }
    | b :: rest =>
      { st with slots := st.slots.set st.rIdx b, rSteps := rest,
                rPhase := RPhase.send }
  | RPhase.send =>
    if st.queue.length < cap then
      { st with queue := st.queue ++ [some st.rIdx],
                rIdx := (st.rIdx + 1) % st.slots.length,
                rPhase := RPhase.fill }
    else st
  | RPhase.stop =>
    if st.nonesLeft = 0 then { st with rPhase := RPhase.done }
    else if st.queue.length < cap then
      { st with queue := st.queue ++ [none], nonesLeft := st.nonesLeft - 1 }
    else st
  | RPhase.done => st

/-- One atomic step of worker `w` (see the overview above). -/
def stepWorker (st : MachineState α) (w : Nat) : MachineState α :=
  match st.workers[w]? with
  | some (true, log) =>
    match st.queue with
    | some idx :: qrest =>
      { st with queue := qrest,
                workers := st.workers.set w (true, log ++ st.slots.getD idx []) }
    | none :: qrest =>
      { st with queue := qrest, workers := st.workers.set w (false, log) }
    | [] => st
  | _ => st

/-- Run the machine under a schedule: entry `0` steps the reader, entry
`w + 1` steps worker `w`. -/
def runSched (cap : Nat) : MachineState α → List Nat → MachineState α
  | st, [] => st
  | st, t :: ts =>
    runSched cap (if t = 0 then stepReader cap st else stepWorker st (t - 1)) ts

/-- Initial pipeline state built by `process_parallel` for `num_threads`
workers: `num_threads * 2` default (empty) slots, an empty bounded queue,
the reader about to fill slot 0, every worker at its first `recv`. -/
def initState (num_threads : Nat) (input : List (List α)) : MachineState α :=
  { rSteps := input, rIdx := 0, rPhase := RPhase.fill, nonesLeft := num_threads,
    queue := [], slots := List.replicate (num_threads * 2) [],
    workers := List.replicate num_threads (true, []) }

/-- The whole `process_parallel` call on a source parsed as `input`, run
under the given schedule; the queue capacity is `num_threads * 2`
(`src/macro_impl.rs` line 97). -/
def process_parallel_run (num_threads : Nat) (input : List (List α))
    (sched : List Nat) : MachineState α :=
  runSched (num_threads * 2) (initState num_threads input) sched

/-- Number of records in the parsed input. -/
def totalRecords (input : List (List α)) : Nat :=
  (input.map List.length).sum

/-- Total number of `process_record` invocations performed by all workers
of a machine state. -/
def totalProcessed (st : MachineState α) : Nat :=
  (st.workers.map fun w => w.2.length).sum

/-! ## Reader-thread lemmas -/

theorem readerLoop_count_none {ε : Type} (len numThreads : Nat) :
    ∀ (steps : List (Except ε Unit)) (idx : Nat),
      ((readerLoop len numThreads idx steps).2 = Except.ok () →
        (readerLoop len numThreads idx steps).1.count none = numThreads) ∧
      ∀ e : ε, (readerLoop len numThreads idx steps).2 = Except.error e →
        (readerLoop len numThreads idx steps).1.count none = 0 := by
  intro steps
  induction steps with
  | nil =>
    intro idx
    refine ⟨fun _ => ?_, fun e he => ?_⟩
    · simp [readerLoop]
    · simp [readerLoop] at he
  | cons step rest ih =>
    intro idx
    cases step with
    | ok u =>
      cases u
      refine ⟨fun h => ?_, fun e he => ?_⟩
      · have h2 : (readerLoop len numThreads ((idx + 1) % len) rest).2
            = Except.ok () := h
        have hcnt := ((ih ((idx + 1) % len)).1) h2
        simpa [readerLoop, List.count_cons] using hcnt
      · have h2 : (readerLoop len numThreads ((idx + 1) % len) rest).2
            = Except.error e := he
        have hcnt := ((ih ((idx + 1) % len)).2) e h2
        simpa [readerLoop, List.count_cons] using hcnt
    | error e0 =>
      refine ⟨fun h => ?_, fun e he => ?_⟩
      · simp [readerLoop] at h
      · simp [readerLoop]

theorem readerLoop_allOk_ok {ε : Type} (len numThreads : Nat) :
    ∀ (steps : List (Except ε Unit)) (idx : Nat), allOk steps = true →
      (readerLoop len numThreads idx steps).2 = Except.ok () := by
  intro steps
  induction steps with
  | nil => intro idx _; simp [readerLoop]
  | cons step rest ih =>
    intro idx hall
    cases step with
    | ok u =>
      cases u
      have hrest : allOk rest = true := by
        simpa [allOk] using hall
      have := ih ((idx + 1) % len) hrest
      simpa [readerLoop] using this
    | error e => simp [allOk] at hall

theorem pairedReaderLoop_count_none {ε : Type} (len numThreads : Nat) :
    ∀ (steps1 steps2 : List (Except ε Unit)) (idx : Nat),
      ((pairedReaderLoop len numThreads idx steps1 steps2).2 = Except.ok () →
        (pairedReaderLoop len numThreads idx steps1 steps2).1.count none
          = numThreads) ∧
      ∀ e : ε,
        (pairedReaderLoop len numThreads idx steps1 steps2).2 = Except.error e →
        (pairedReaderLoop len numThreads idx steps1 steps2).1.count none = 0 := by
  intro steps1
  induction steps1 with
  | nil =>
    intro steps2 idx
    refine ⟨fun _ => ?_, fun e he => ?_⟩
    · simp [pairedReaderLoop]
    · simp [pairedReaderLoop] at he
  | cons s1 rest1 ih =>
    intro steps2 idx
    cases steps2 with
    | nil =>
      refine ⟨fun _ => ?_, fun e he => ?_⟩
      · simp [pairedReaderLoop]
      · simp [pairedReaderLoop] at he
    | cons s2 rest2 =>
      cases s1 with
      | error e1 =>
        refine ⟨fun h => ?_, fun e he => ?_⟩
        · simp [pairedReaderLoop] at h
        · simp [pairedReaderLoop]
      | ok u =>
        cases u
        cases s2 with
        | error e2 =>
          refine ⟨fun h => ?_, fun e he => ?_⟩
          · simp [pairedReaderLoop] at h
          · simp [pairedReaderLoop]
        | ok v =>
          cases v
          refine ⟨fun h => ?_, fun e he => ?_⟩
          · have h2 : (pairedReaderLoop len numThreads ((idx + 1) % len)
                rest1 rest2).2 = Except.ok () := h
            have hcnt := ((ih rest2 ((idx + 1) % len)).1) h2
            simpa [pairedReaderLoop, List.count_cons] using hcnt
          · have h2 : (pairedReaderLoop len numThreads ((idx + 1) % len)
                rest1 rest2).2 = Except.error e := he
            have hcnt := ((ih rest2 ((idx + 1) % len)).2) e h2
            simpa [pairedReaderLoop, List.count_cons] using hcnt

/-- Clean paired termination: when neither source errors, the paired reader
returns `Ok(())`, publishes exactly `min` of the two batch counts, and sends
exactly `numThreads` termination tokens. -/
theorem pairedReaderLoop_allOk {ε : Type} (len numThreads : Nat) :
    ∀ (steps1 steps2 : List (Except ε Unit)) (idx : Nat),
      allOk steps1 = true → allOk steps2 = true →
      (pairedReaderLoop len numThreads idx steps1 steps2).2 = Except.ok () ∧
      (publishedIdxs (pairedReaderLoop len numThreads idx steps1 steps2).1).length
        = min steps1.length steps2.length ∧
      (pairedReaderLoop len numThreads idx steps1 steps2).1.count none
        = numThreads := by
  intro steps1
  induction steps1 with
  | nil =>
    intro steps2 idx _ _
    refine ⟨by simp [pairedReaderLoop], ?_, by simp [pairedReaderLoop]⟩
    simp [pairedReaderLoop, publishedIdxs, List.filterMap_replicate]
  | cons s1 rest1 ih =>
    intro steps2 idx hall1 hall2
    cases steps2 with
    | nil =>
      refine ⟨by simp [pairedReaderLoop], ?_, by simp [pairedReaderLoop]⟩
      simp [pairedReaderLoop, publishedIdxs, List.filterMap_replicate]
    | cons s2 rest2 =>
      cases s1 with
      | error e1 => simp [allOk] at hall1
      | ok u =>
        cases u
        cases s2 with
        | error e2 => simp [allOk] at hall2
        | ok v =>
          cases v
          have hr1 : allOk rest1 = true := by simpa [allOk] using hall1
          have hr2 : allOk rest2 = true := by simpa [allOk] using hall2
          obtain ⟨hok, hlen, hcnt⟩ := ih rest2 ((idx + 1) % len) hr1 hr2
          refine ⟨by simpa [pairedReaderLoop] using hok, ?_, ?_⟩
          · have : publishedIdxs
                (pairedReaderLoop len numThreads idx
                  (Except.ok () :: rest1) (Except.ok () :: rest2)).1
                = idx :: publishedIdxs
                    (pairedReaderLoop len numThreads ((idx + 1) % len)
                      rest1 rest2).1 := rfl
            rw [this]
            simp [hlen, Nat.succ_min_succ, List.length_cons]
          · simpa [pairedReaderLoop, List.count_cons] using hcnt

theorem publishedIdxs_replicate_none :
    ∀ n : Nat, publishedIdxs (List.replicate n (none : Token)) = [] := by
  intro n
  simp [publishedIdxs, List.filterMap_replicate]

theorem readerLoop_round_robin {ε : Type} (len numThreads : Nat)
    (hlen : 0 < len) :
    ∀ (steps : List (Except ε Unit)) (idx : Nat), idx < len →
      ∀ k x : Nat,
        (publishedIdxs (readerLoop len numThreads idx steps).1)[k]? = some x →
        x = (idx + k) % len := by
  intro steps
  induction steps with
  | nil =>
    intro idx _ k x hk
    rw [show (readerLoop len numThreads idx ([] : List (Except ε Unit))).1
        = List.replicate numThreads none from rfl,
      publishedIdxs_replicate_none] at hk
    simp at hk
  | cons step rest ih =>
    intro idx hidx k x hk
    cases step with
    | error e => simp [readerLoop, publishedIdxs] at hk
    | ok u =>
      cases u
      have hred : publishedIdxs
          (readerLoop len numThreads idx (Except.ok () :: rest)).1
          = idx :: publishedIdxs
              (readerLoop len numThreads ((idx + 1) % len) rest).1 := rfl
      rw [hred] at hk
      cases k with
      | zero =>
        simp at hk
        rw [← hk, Nat.add_zero, Nat.mod_eq_of_lt hidx]
      | succ k =>
        rw [List.getElem?_cons_succ] at hk
        have hx := ih ((idx + 1) % len) (Nat.mod_lt _ hlen) k x hk
        rw [hx, Nat.mod_add_mod]
        congr 1
        omega

theorem pairedReaderLoop_round_robin {ε : Type} (len numThreads : Nat)
    (hlen : 0 < len) :
    ∀ (steps1 steps2 : List (Except ε Unit)) (idx : Nat), idx < len →
      ∀ k x : Nat,
        (publishedIdxs
          (pairedReaderLoop len numThreads idx steps1 steps2).1)[k]? = some x →
        x = (idx + k) % len := by
  intro steps1
  induction steps1 with
  | nil =>
    intro steps2 idx _ k x hk
    rw [show (pairedReaderLoop len numThreads idx ([] : List (Except ε Unit))
        steps2).1 = List.replicate numThreads none from rfl,
      publishedIdxs_replicate_none] at hk
    simp at hk
  | cons s1 rest1 ih =>
    intro steps2 idx hidx k x hk
    cases steps2 with
    | nil =>
      rw [show (pairedReaderLoop len numThreads idx (s1 :: rest1)
          ([] : List (Except ε Unit))).1 = List.replicate numThreads none
          from rfl, publishedIdxs_replicate_none] at hk
      simp at hk
    | cons s2 rest2 =>
      cases s1 with
      | error e1 => simp [pairedReaderLoop, publishedIdxs] at hk
      | ok u =>
        cases u
        cases s2 with
        | error e2 => simp [pairedReaderLoop, publishedIdxs] at hk
        | ok v =>
          cases v
          have hred : publishedIdxs
              (pairedReaderLoop len numThreads idx
                (Except.ok () :: rest1) (Except.ok () :: rest2)).1
              = idx :: publishedIdxs
                  (pairedReaderLoop len numThreads ((idx + 1) % len)
                    rest1 rest2).1 := rfl
          rw [hred] at hk
          cases k with
          | zero =>
            simp at hk
            rw [← hk, Nat.add_zero, Nat.mod_eq_of_lt hidx]
          | succ k =>
            rw [List.getElem?_cons_succ] at hk
            have hx := ih rest2 ((idx + 1) % len) (Nat.mod_lt _ hlen) k x hk
            rw [hx, Nat.mod_add_mod]
            congr 1
            omega

/-! ## Claim C1 -/

/-- Claim C1, counterexample: with `thread_count = 1`, a single-stream
source whose first fill reports a hard error makes the reader return
immediately — it pushes the termination token `None` zero times, not
`thread_count` times; likewise for the paired reader. -/
theorem c1_counterexample :
    (run_reader_thread (ε := Unit) (2 * 1) 1 [Except.error ()]).1.count none
      = 0 ∧
    ¬ (run_reader_thread (ε := Unit) (2 * 1) 1 [Except.error ()]).1.count none
      = 1 ∧
    (run_paired_reader_thread (ε := Unit) (2 * 1) 1
      [Except.error ()] [Except.ok ()]).1.count none = 0 := by
  decide

/-- Claim C1 (amended): for every `thread_count >= 1` and both the
single-stream and the paired-stream reader, when the reader loop exits
cleanly (end of input, including an empty source) the reader returns
`Ok(())` after pushing the termination token `None` exactly `thread_count`
times; but when it exits on a hard source error it propagates the error
immediately and pushes no termination token at all. -/
theorem c1_termination_tokens {ε : Type} (numThreads : Nat)
    (_hT : 1 ≤ numThreads) (steps steps1 steps2 : List (Except ε Unit)) :
    ((run_reader_thread (2 * numThreads) numThreads steps).2 = Except.ok () →
      (run_reader_thread (2 * numThreads) numThreads steps).1.count none
        = numThreads) ∧
    (∀ e : ε,
      (run_reader_thread (2 * numThreads) numThreads steps).2
        = Except.error e →
      (run_reader_thread (2 * numThreads) numThreads steps).1.count none
        = 0) ∧
    (allOk steps = true →
      (run_reader_thread (2 * numThreads) numThreads steps).2
        = Except.ok ()) ∧
    ((run_paired_reader_thread (2 * numThreads) numThreads steps1 steps2).2
        = Except.ok () →
      (run_paired_reader_thread (2 * numThreads) numThreads
        steps1 steps2).1.count none = numThreads) ∧
    (∀ e : ε,
      (run_paired_reader_thread (2 * numThreads) numThreads steps1 steps2).2
        = Except.error e →
      (run_paired_reader_thread (2 * numThreads) numThreads
        steps1 steps2).1.count none = 0) ∧
    (allOk steps1 = true → allOk steps2 = true →
      (run_paired_reader_thread (2 * numThreads) numThreads steps1 steps2).2
        = Except.ok ()) := by
  refine ⟨?_, ?_, ?_, ?_, ?_, ?_⟩
  · exact (readerLoop_count_none (2 * numThreads) numThreads steps 0).1
  · exact (readerLoop_count_none (2 * numThreads) numThreads steps 0).2
  · exact readerLoop_allOk_ok (2 * numThreads) numThreads steps 0
  · exact (pairedReaderLoop_count_none (2 * numThreads) numThreads
      steps1 steps2 0).1
  · exact (pairedReaderLoop_count_none (2 * numThreads) numThreads
      steps1 steps2 0).2
  · intro h1 h2
    exact (pairedReaderLoop_allOk (2 * numThreads) numThreads
      steps1 steps2 0 h1 h2).1

/-- Witness for C1: at `thread_count = 1` with empty sources both readers
push exactly one termination token, and on an erroring source none. -/
theorem c1_termination_tokens_witness :
    (run_reader_thread (ε := Unit) (2 * 1) 1 []).1.count none = 1 ∧
    (run_paired_reader_thread (ε := Unit) (2 * 1) 1 [] []).1.count none = 1 ∧
    (run_reader_thread (ε := Unit) (2 * 1) 1 [Except.error ()]).1.count none
      = 0 :=
  ⟨(c1_termination_tokens 1 (le_refl 1) [] [] []).1 rfl,
   (c1_termination_tokens 1 (le_refl 1) [] [] []).2.2.2.1 rfl,
   (c1_termination_tokens 1 (le_refl 1) [Except.error ()] [] []).2.1 () rfl⟩

/-! ## Claim C4 -/

/-- Claim C4 (confirmed): in paired mode, for any two error-free sources
with different batch counts, the reader stops at the first end-of-input,
returns `Ok(())` (ordinary termination, no error from the length
difference), publishes exactly `min` of the two sources' batch counts (the
final partially-filled slot is never published), and sends the usual
`thread_count` termination tokens. -/
theorem c4_paired_length_mismatch {ε : Type} (numThreads : Nat)
    (_hT : 1 ≤ numThreads) (steps1 steps2 : List (Except ε Unit))
    (h1 : allOk steps1 = true) (h2 : allOk steps2 = true)
    (_hne : steps1.length ≠ steps2.length) :
    (run_paired_reader_thread (2 * numThreads) numThreads steps1 steps2).2
      = Except.ok () ∧
    (publishedIdxs (run_paired_reader_thread (2 * numThreads) numThreads
      steps1 steps2).1).length = min steps1.length steps2.length ∧
    (run_paired_reader_thread (2 * numThreads) numThreads
      steps1 steps2).1.count none = numThreads :=
  pairedReaderLoop_allOk (2 * numThreads) numThreads steps1 steps2 0 h1 h2

/-- Witness for C4, the spec's own example: stream A with 5 batches and
stream B with 3 batches complete cleanly with exactly 3 published slots. -/
theorem c4_paired_length_mismatch_witness :
    (run_paired_reader_thread (ε := Unit) (2 * 1) 1
      (List.replicate 5 (Except.ok ())) (List.replicate 3 (Except.ok ()))).2
      = Except.ok () ∧
    (publishedIdxs (run_paired_reader_thread (ε := Unit) (2 * 1) 1
      (List.replicate 5 (Except.ok ()))
      (List.replicate 3 (Except.ok ()))).1).length = 3 ∧
    (run_paired_reader_thread (ε := Unit) (2 * 1) 1
      (List.replicate 5 (Except.ok ()))
      (List.replicate 3 (Except.ok ()))).1.count none = 1 := by
  have h := c4_paired_length_mismatch (ε := Unit) 1 (le_refl 1)
    (List.replicate 5 (Except.ok ())) (List.replicate 3 (Except.ok ()))
    rfl rfl (by decide)
  refine ⟨h.1, ?_, h.2.2⟩
  rw [h.2.1]
  simp

/-! ## Claim C6 -/

/-- Claim C6 (confirmed): both readers assign batches to slots strictly
round-robin — for every `k`, the `k`-th published token carries slot index
`k mod (2 * thread_count)`. -/
theorem c6_round_robin {ε : Type} (numThreads : Nat) (hT : 1 ≤ numThreads)
    (steps steps1 steps2 : List (Except ε Unit)) :
    (∀ k x : Nat,
      (publishedIdxs (run_reader_thread (2 * numThreads) numThreads
        steps).1)[k]? = some x → x = k % (2 * numThreads)) ∧
    (∀ k x : Nat,
      (publishedIdxs (run_paired_reader_thread (2 * numThreads) numThreads
        steps1 steps2).1)[k]? = some x → x = k % (2 * numThreads)) := by
  have hlen : 0 < 2 * numThreads := by omega
  constructor
  · intro k x hk
    have := readerLoop_round_robin (2 * numThreads) numThreads hlen steps 0
      hlen k x hk
    simpa using this
  · intro k x hk
    have := pairedReaderLoop_round_robin (2 * numThreads) numThreads hlen
      steps1 steps2 0 hlen k x hk
    simpa using this

/-- Witness for C6: with one worker thread (pool of 2 slots) and three
batches the published slot sequence is `0, 1, 0`, so the token at position
2 is `2 mod 2 = 0`; similarly for the paired reader. -/
theorem c6_round_robin_witness :
    (publishedIdxs (run_reader_thread (ε := Unit) (2 * 1) 1
      [Except.ok (), Except.ok (), Except.ok ()]).1)[2]?
      = some (2 % (2 * 1)) ∧
    (publishedIdxs (run_paired_reader_thread (ε := Unit) (2 * 1) 1
      [Except.ok (), Except.ok (), Except.ok ()]
      [Except.ok (), Except.ok (), Except.ok (), Except.ok ()]).1)[2]?
      = some (2 % (2 * 1)) := by
  constructor
  · have h := (c6_round_robin (ε := Unit) 1 (le_refl 1)
      [Except.ok (), Except.ok (), Except.ok ()] [] []).1 2 0 rfl
    rw [← h]
    rfl
  · have h := (c6_round_robin (ε := Unit) 1 (le_refl 1) []
      [Except.ok (), Except.ok (), Except.ok ()]
      [Except.ok (), Except.ok (), Except.ok (), Except.ok ()]).2 2 0 rfl
    rw [← h]
    rfl

/-! ## Worker-thread lemmas -/

theorem processBatch_events (P : ProcessorModel σ α ε) :
    ∀ (l : List α) (s : σ), ∀ e ∈ (processBatch P s l).1,
      ∃ r, e = WorkerEvent.processRecord r := by
  intro l
  induction l with
  | nil => intro s e he; simp [processBatch] at he
  | cons r rs ih =>
    intro s e he
    cases hp : P.process_record s r with
    | ok s2 =>
      simp only [processBatch, hp] at he
      rcases List.mem_cons.mp he with h | h
      · exact ⟨r, h⟩
      · exact ih s2 e h
    | error e0 =>
      simp only [processBatch, hp, List.mem_singleton] at he
      exact ⟨r, he⟩

theorem processPairs_events (P : PairedProcessorModel σ α ε) :
    ∀ (l : List (α × α)) (s : σ), ∀ e ∈ (processPairs P s l).1,
      ∃ p, e = WorkerEvent.processRecord p := by
  intro l
  induction l with
  | nil => intro s e he; simp [processPairs] at he
  | cons p ps ih =>
    intro s e he
    cases hp : P.process_record_pair s p.1 p.2 with
    | ok s2 =>
      simp only [processPairs, hp] at he
      rcases List.mem_cons.mp he with h | h
      · exact ⟨p, h⟩
      · exact ih s2 e h
    | error e0 =>
      simp only [processPairs, hp, List.mem_singleton] at he
      exact ⟨p, he⟩

theorem workerLoop_no_setThreadId (P : ProcessorModel σ α ε)
    (slots : Nat → List α) :
    ∀ (received : List Token) (s : σ),
      ((workerLoop P slots s received).1).countP isSetThreadId = 0 := by
  intro received
  induction received with
  | nil =>
    intro s
    cases h : P.on_thread_complete s <;> simp [workerLoop, h, isSetThreadId]
  | cons tok rest ih =>
    intro s
    cases tok with
    | none =>
      cases h : P.on_thread_complete s <;> simp [workerLoop, h, isSetThreadId]
    | some idx =>
      have hpb0 : ((processBatch P s (slots idx)).1).countP isSetThreadId
          = 0 := by
        refine List.countP_eq_zero.mpr ?_
        intro e he
        obtain ⟨r, rfl⟩ := processBatch_events P (slots idx) s e he
        simp [isSetThreadId]
      cases ht : (processBatch P s (slots idx)).2 with
      | error e => simp [workerLoop, ht, hpb0]
      | ok s2 =>
        cases hb : P.on_batch_complete s2 with
        | error e =>
          simp [workerLoop, ht, hb, List.countP_append, hpb0, isSetThreadId]
        | ok s3 =>
          simp [workerLoop, ht, hb, List.countP_append, List.countP_cons,
            hpb0, isSetThreadId, ih s3]

theorem run_paired_worker_thread_events (P : PairedProcessorModel σ α ε)
    (slots : Nat → List α × List α) :
    ∀ (received : List Token) (s : σ),
      ∀ e ∈ (run_paired_worker_thread P slots s received).1,
        (∃ p, e = WorkerEvent.processRecord p)
          ∨ e = WorkerEvent.onBatchComplete := by
  intro received
  induction received with
  | nil => intro s e he; simp [run_paired_worker_thread] at he
  | cons tok rest ih =>
    intro s e he
    cases tok with
    | none => simp [run_paired_worker_thread] at he
    | some idx =>
      cases ht : (processPairs P s ((slots idx).1.zip (slots idx).2)).2 with
      | error e0 =>
        simp only [run_paired_worker_thread, ht] at he
        exact Or.inl (processPairs_events P _ s e he)
      | ok s2 =>
        cases hb : P.on_batch_complete s2 with
        | error e0 =>
          simp only [run_paired_worker_thread, ht, hb] at he
          rcases List.mem_append.mp he with h | h
          · exact Or.inl (processPairs_events P _ s e h)
          · exact Or.inr (List.mem_singleton.mp h)
        | ok s3 =>
          simp only [run_paired_worker_thread, ht, hb] at he
          rcases List.mem_append.mp he with h | h
          · exact Or.inl (processPairs_events P _ s e h)
          · rcases List.mem_cons.mp h with h2 | h2
            · exact Or.inr h2
            · exact ih s3 e h2

theorem run_paired_worker_no_setThreadId (P : PairedProcessorModel σ α ε)
    (slots : Nat → List α × List α) (received : List Token) (s : σ) :
    ((run_paired_worker_thread P slots s received).1).countP isSetThreadId
      = 0 := by
  refine List.countP_eq_zero.mpr ?_
  intro e he
  rcases run_paired_worker_thread_events P slots received s e he with ⟨p, rfl⟩ | rfl
  · simp [isSetThreadId]
  · simp [isSetThreadId]

theorem run_paired_worker_no_onThreadComplete (P : PairedProcessorModel σ α ε)
    (slots : Nat → List α × List α) (received : List Token) (s : σ) :
    ((run_paired_worker_thread P slots s received).1).countP isOnThreadComplete
      = 0 := by
  refine List.countP_eq_zero.mpr ?_
  intro e he
  rcases run_paired_worker_thread_events P slots received s e he with ⟨p, rfl⟩ | rfl
  · simp [isOnThreadComplete]
  · simp [isOnThreadComplete]

/-! ## Claim C2 -/

/-- Claim C2, counterexample: a paired worker that drains a batch of two
pairs performs zero `set_thread_id` invocations — not exactly one — because
`run_paired_worker_thread` has no `thread_id` parameter and its spawn loop
is `for _ in 0..num_threads`. -/
theorem c2_counterexample :
    ((run_paired_worker_thread countingPairedProcessor
      (fun _ => ([1, 2], [3, 4])) 0 [some 0, none]).1).countP isSetThreadId
      = 0 ∧
    ((run_paired_worker_thread countingPairedProcessor
      (fun _ => ([1, 2], [3, 4])) 0 [some 0, none]).1).countP isProcessRecord
      = 2 := by
  decide

/-- Claim C2 (amended): in the single-stream pipeline every worker invokes
`set_thread_id` on its processor clone exactly once, as its very first
callback (before any record), and the spawned workers receive the thread
ids `0, 1, …, T-1` — pairwise distinct and all in `[0, T)`.  In the
paired-stream pipeline no worker ever invokes `set_thread_id`. -/
theorem c2_set_thread_id (P : ProcessorModel σ α ε)
    (P2 : PairedProcessorModel σ α ε) (slots : Nat → List α)
    (slots2 : Nat → List α × List α) (s0 t0 : σ) (tid numThreads : Nat)
    (received received2 : List Token) :
    (∃ rest, (run_worker_thread P slots s0 tid received).1
        = WorkerEvent.setThreadId tid :: rest
      ∧ rest.countP isSetThreadId = 0) ∧
    process_parallel_worker_ids numThreads = List.range numThreads ∧
    (process_parallel_worker_ids numThreads).Nodup ∧
    (∀ i ∈ process_parallel_worker_ids numThreads, i < numThreads) ∧
    ((run_paired_worker_thread P2 slots2 t0 received2).1).countP isSetThreadId
      = 0 := by
  refine ⟨⟨(workerLoop P slots (P.set_thread_id s0 tid) received).1, rfl,
    workerLoop_no_setThreadId P slots received _⟩, rfl,
    List.nodup_range numThreads,
    ?_, run_paired_worker_no_setThreadId P2 slots2 received2 t0⟩
  intro i hi
  exact List.mem_range.mp hi

/-! ## Claim C3 -/

theorem workerLoop_ok_shape (P : ProcessorModel σ α ε)
    (slots : Nat → List α) :
    ∀ (received : List Token) (s : σ),
      (∃ s2, (workerLoop P slots s received).2 = Except.ok s2) →
      ∃ pre, (workerLoop P slots s received).1
          = pre ++ [WorkerEvent.onThreadComplete]
        ∧ pre.countP isOnThreadComplete = 0 := by
  intro received
  induction received with
  | nil =>
    intro s _
    refine ⟨[], ?_, rfl⟩
    cases h : P.on_thread_complete s <;> simp [workerLoop, h]
  | cons tok rest ih =>
    intro s hok
    cases tok with
    | none =>
      refine ⟨[], ?_, rfl⟩
      cases h : P.on_thread_complete s <;> simp [workerLoop, h]
    | some idx =>
      cases ht : (processBatch P s (slots idx)).2 with
      | error e =>
        exfalso
        obtain ⟨s2, h2⟩ := hok
        simp [workerLoop, ht] at h2
      | ok s2 =>
        cases hb : P.on_batch_complete s2 with
        | error e =>
          exfalso
          obtain ⟨s4, h4⟩ := hok
          simp [workerLoop, ht, hb] at h4
        | ok s3 =>
          have hok2 : ∃ s4, (workerLoop P slots s3 rest).2 = Except.ok s4 := by
            obtain ⟨s4, h4⟩ := hok
            exact ⟨s4, by simpa [workerLoop, ht, hb] using h4⟩
          obtain ⟨pre, hpre, hcnt⟩ := ih s3 hok2
          refine ⟨(processBatch P s (slots idx)).1
            ++ WorkerEvent.onBatchComplete :: pre, ?_, ?_⟩
          · simp [workerLoop, ht, hb, hpre]
          · have h0 : ((processBatch P s (slots idx)).1).countP
                isOnThreadComplete = 0 := by
              refine List.countP_eq_zero.mpr ?_
              intro e he
              obtain ⟨r, rfl⟩ := processBatch_events P (slots idx) s e he
              simp [isOnThreadComplete]
            simp [List.countP_append, List.countP_cons, h0, hcnt,
              isOnThreadComplete]

/-- Claim C3 (amended): in the single-stream pipeline, every worker that
terminates without a callback error invokes `on_thread_complete` exactly
once, after its last batch, as the final callback before reporting success.
In the paired-stream pipeline `on_thread_complete` is never invoked at all:
`run_paired_worker_thread` returns directly after its receive loop. -/
theorem c3_on_thread_complete (P : ProcessorModel σ α ε)
    (P2 : PairedProcessorModel σ α ε) (slots : Nat → List α)
    (slots2 : Nat → List α × List α) (s0 t0 : σ) (tid : Nat)
    (received received2 : List Token)
    (hok : ∃ s2, (run_worker_thread P slots s0 tid received).2
      = Except.ok s2) :
    (∃ pre, (run_worker_thread P slots s0 tid received).1
        = WorkerEvent.setThreadId tid
            :: (pre ++ [WorkerEvent.onThreadComplete])
      ∧ pre.countP isOnThreadComplete = 0) ∧
    ((run_paired_worker_thread P2 slots2 t0 received2).1).countP
      isOnThreadComplete = 0 := by
  constructor
  · obtain ⟨pre, hpre, hcnt⟩ := workerLoop_ok_shape P slots received
      (P.set_thread_id s0 tid) hok
    exact ⟨pre, by simp [run_worker_thread, hpre], hcnt⟩
  · exact run_paired_worker_no_onThreadComplete P2 slots2 received2 t0

/-- Witness for C3: a concrete error-free single-stream worker run whose
trace is `set_thread_id`, then the batch, then `on_thread_complete` last. -/
theorem c3_on_thread_complete_witness :
    ∃ pre, (run_worker_thread countingProcessor (fun _ => [5]) 0 0
        [some 0, none]).1
      = WorkerEvent.setThreadId 0 :: (pre ++ [WorkerEvent.onThreadComplete])
      ∧ pre.countP isOnThreadComplete = 0 :=
  (c3_on_thread_complete countingProcessor countingPairedProcessor
    (fun _ => [5]) (fun _ => ([], [])) 0 0 0 [some 0, none] []
    ⟨1, rfl⟩).1

/-- Claim C3, counterexample: a paired worker that drains one batch and
then receives the termination token reports success (`Ok`) yet performs
zero `on_thread_complete` invocations. -/
theorem c3_counterexample :
    ((run_paired_worker_thread countingPairedProcessor (fun _ => ([1], [2]))
      0 [some 0, none]).1).countP isOnThreadComplete = 0 ∧
    (run_paired_worker_thread countingPairedProcessor (fun _ => ([1], [2]))
      0 [some 0, none]).2 = Except.ok 1 := by
  exact ⟨by decide, rfl⟩

/-! ## Claim C8 -/

theorem processBatch_ok_trace (P : ProcessorModel σ α ε)
    (hpr : ∀ (s : σ) (r : α), ∃ s2, P.process_record s r = Except.ok s2) :
    ∀ (l : List α) (s : σ),
      (processBatch P s l).1 = l.map WorkerEvent.processRecord ∧
      ∃ s2, (processBatch P s l).2 = Except.ok s2 := by
  intro l
  induction l with
  | nil => intro s; exact ⟨rfl, ⟨s, rfl⟩⟩
  | cons r rs ih =>
    intro s
    obtain ⟨s2, hs2⟩ := hpr s r
    obtain ⟨htr, s3, hs3⟩ := ih s2
    refine ⟨?_, ⟨s3, ?_⟩⟩
    · simp [processBatch, hs2, htr]
    · simp [processBatch, hs2, hs3]

theorem processPairs_ok_trace (P : PairedProcessorModel σ α ε)
    (hpp : ∀ (s : σ) (a b : α), ∃ s2,
      P.process_record_pair s a b = Except.ok s2) :
    ∀ (l : List (α × α)) (s : σ),
      (processPairs P s l).1 = l.map WorkerEvent.processRecord ∧
      ∃ s2, (processPairs P s l).2 = Except.ok s2 := by
  intro l
  induction l with
  | nil => intro s; exact ⟨rfl, ⟨s, rfl⟩⟩
  | cons p ps ih =>
    intro s
    obtain ⟨s2, hs2⟩ := hpp s p.1 p.2
    obtain ⟨htr, s3, hs3⟩ := ih s2
    refine ⟨?_, ⟨s3, ?_⟩⟩
    · simp [processPairs, hs2, htr]
    · simp [processPairs, hs2, hs3]

theorem workerLoop_ok_trace (P : ProcessorModel σ α ε)
    (slots : Nat → List α)
    (hpr : ∀ (s : σ) (r : α), ∃ s2, P.process_record s r = Except.ok s2)
    (hb : ∀ s : σ, ∃ s2, P.on_batch_complete s = Except.ok s2) :
    ∀ (received : List Token) (s : σ),
      (workerLoop P slots s received).1
        = flatEvents (fun idx => (slots idx).map WorkerEvent.processRecord
            ++ [WorkerEvent.onBatchComplete]) (consumedIdxs received)
          ++ [WorkerEvent.onThreadComplete] := by
  intro received
  induction received with
  | nil =>
    intro s
    cases h : P.on_thread_complete s <;>
      simp [workerLoop, h, consumedIdxs, flatEvents]
  | cons tok rest ih =>
    intro s
    cases tok with
    | none =>
      cases h : P.on_thread_complete s <;>
        simp [workerLoop, h, consumedIdxs, flatEvents]
    | some idx =>
      obtain ⟨htr, s2, hs2⟩ := processBatch_ok_trace P hpr (slots idx) s
      obtain ⟨s3, hs3⟩ := hb s2
      have hcons : consumedIdxs (some idx :: rest) = idx :: consumedIdxs rest := by
        simp [consumedIdxs]
      simp [workerLoop, hs2, hs3, htr, ih s3, hcons, flatEvents,
        consumedIdxs]

theorem run_paired_worker_ok_trace (P : PairedProcessorModel σ α ε)
    (slots : Nat → List α × List α)
    (hpp : ∀ (s : σ) (a b : α), ∃ s2,
      P.process_record_pair s a b = Except.ok s2)
    (hb : ∀ s : σ, ∃ s2, P.on_batch_complete s = Except.ok s2) :
    ∀ (received : List Token) (s : σ),
      (run_paired_worker_thread P slots s received).1
        = flatEvents (fun idx =>
            ((slots idx).1.zip (slots idx).2).map WorkerEvent.processRecord
              ++ [WorkerEvent.onBatchComplete]) (consumedIdxs received) := by
  intro received
  induction received with
  | nil => intro s; simp [run_paired_worker_thread, consumedIdxs, flatEvents]
  | cons tok rest ih =>
    intro s
    cases tok with
    | none => simp [run_paired_worker_thread, consumedIdxs, flatEvents]
    | some idx =>
      obtain ⟨htr, s2, hs2⟩ := processPairs_ok_trace P hpp
        ((slots idx).1.zip (slots idx).2) s
      obtain ⟨s3, hs3⟩ := hb s2
      have hcons : consumedIdxs (some idx :: rest) = idx :: consumedIdxs rest := by
        simp [consumedIdxs]
      simp [run_paired_worker_thread, hs2, hs3, htr, ih s3, hcons,
        flatEvents, consumedIdxs]

theorem countP_flatEvents_batches (g : Nat → List β) :
    ∀ l : List Nat,
      (flatEvents (fun idx => (g idx).map WorkerEvent.processRecord
        ++ [WorkerEvent.onBatchComplete]) l).countP isOnBatchComplete
      = l.length := by
  intro l
  induction l with
  | nil => rfl
  | cons i is ih =>
    have h0 : ((g i).map WorkerEvent.processRecord).countP isOnBatchComplete
        = 0 := by
      refine List.countP_eq_zero.mpr ?_
      intro e he
      obtain ⟨r, _, rfl⟩ := List.mem_map.mp he
      simp [isOnBatchComplete]
    simp [flatEvents, List.countP_append, List.countP_cons, h0, ih,
      isOnBatchComplete]

/-- Claim C8 (confirmed): in both pipelines, for an error-free processor a
worker invokes `on_batch_complete` exactly once per drained slot, after all
of that slot's records have gone through the per-record callback (the trace
of each drained slot is its records in order followed by one
`on_batch_complete`, even when the slot holds zero records), and the total
number of `on_batch_complete` invocations equals the number of slot indices
the worker consumed from the queue. -/
theorem c8_on_batch_complete (P : ProcessorModel σ α ε)
    (P2 : PairedProcessorModel σ α ε) (slots : Nat → List α)
    (slots2 : Nat → List α × List α) (s0 t0 : σ) (tid : Nat)
    (received received2 : List Token)
    (hpr : ∀ (s : σ) (r : α), ∃ s2, P.process_record s r = Except.ok s2)
    (hb : ∀ s : σ, ∃ s2, P.on_batch_complete s = Except.ok s2)
    (hpp : ∀ (s : σ) (a b : α), ∃ s2,
      P2.process_record_pair s a b = Except.ok s2)
    (hb2 : ∀ s : σ, ∃ s2, P2.on_batch_complete s = Except.ok s2) :
    (run_worker_thread P slots s0 tid received).1
      = WorkerEvent.setThreadId tid
        :: (flatEvents (fun idx => (slots idx).map WorkerEvent.processRecord
              ++ [WorkerEvent.onBatchComplete]) (consumedIdxs received)
            ++ [WorkerEvent.onThreadComplete]) ∧
    ((run_worker_thread P slots s0 tid received).1).countP isOnBatchComplete
      = (consumedIdxs received).length ∧
    (run_paired_worker_thread P2 slots2 t0 received2).1
      = flatEvents (fun idx =>
          ((slots2 idx).1.zip (slots2 idx).2).map WorkerEvent.processRecord
            ++ [WorkerEvent.onBatchComplete]) (consumedIdxs received2) ∧
    ((run_paired_worker_thread P2 slots2 t0 received2).1).countP
      isOnBatchComplete = (consumedIdxs received2).length := by
  have h1 := workerLoop_ok_trace P slots hpr hb received
    (P.set_thread_id s0 tid)
  have h2 := run_paired_worker_ok_trace P2 slots2 hpp hb2 received2 t0
  refine ⟨by simp [run_worker_thread, h1], ?_, h2, ?_⟩
  · simp [run_worker_thread, h1, List.countP_cons, List.countP_append,
      isOnBatchComplete, countP_flatEvents_batches]
  · simp [h2, countP_flatEvents_batches]

/-- Witness for C8: a worker that consumes slots 0 (two records) and 1
(zero records) and then the termination token performs exactly 2
`on_batch_complete` invocations — one per consumed slot, including the
empty one. -/
theorem c8_on_batch_complete_witness :
    ((run_worker_thread countingProcessor
        (fun idx => if idx = 0 then [10, 11] else []) 0 3
        [some 0, some 1, none, some 2]).1).countP isOnBatchComplete
      = (consumedIdxs [some 0, some 1, none, some 2]).length ∧
    (consumedIdxs [some 0, some 1, none, some 2]).length = 2 ∧
    ((run_paired_worker_thread countingPairedProcessor
        (fun _ => ([1, 2], [3])) 0 [some 0, none]).1).countP isOnBatchComplete
      = (consumedIdxs [some 0, none]).length := by
  refine ⟨?_, by decide, ?_⟩
  · exact (c8_on_batch_complete countingProcessor countingPairedProcessor
      (fun idx => if idx = 0 then [10, 11] else []) (fun _ => ([], [])) 0 0 3
      [some 0, some 1, none, some 2] [] (fun s r => ⟨s + 1, rfl⟩)
      (fun s => ⟨s, rfl⟩) (fun s a b => ⟨s + 1, rfl⟩)
      (fun s => ⟨s, rfl⟩)).2.1
  · exact (c8_on_batch_complete countingProcessor countingPairedProcessor
      (fun _ => []) (fun _ => ([1, 2], [3])) 0 0 0 []
      [some 0, none] (fun s r => ⟨s + 1, rfl⟩)
      (fun s => ⟨s, rfl⟩) (fun s a b => ⟨s + 1, rfl⟩)
      (fun s => ⟨s, rfl⟩)).2.2.2

/-! ## Claim C10 -/

theorem zip_get_pair {γ δ : Type} :
    ∀ (l1 : List γ) (l2 : List δ) (i : Nat) (a : γ) (b : δ),
      l1[i]? = some a → l2[i]? = some b → (l1.zip l2)[i]? = some (a, b) := by
  intro l1
  induction l1 with
  | nil => intro l2 i a b h1 _; simp at h1
  | cons x xs ih =>
    intro l2 i a b h1 h2
    cases l2 with
    | nil => simp at h2
    | cons y ys =>
      cases i with
      | zero =>
        simp at h1 h2
        simp [List.zip_cons_cons, h1, h2]
      | succ i =>
        rw [List.getElem?_cons_succ] at h1 h2
        simpa [List.zip_cons_cons, List.getElem?_cons_succ]
          using ih ys i a b h1 h2

/-- Claim C10 (confirmed): when a paired worker drains a slot whose two
record sets hold `n1` and `n2` records, it invokes `process_record_pair`
exactly `min n1 n2` times, pairing records by position (the `i`-th pair is
the `i`-th record of each set); the excess records of the longer set get no
callback and cause no error — the batch ends with the normal
`on_batch_complete`. -/
theorem c10_paired_zip_min (P2 : PairedProcessorModel σ α ε) (t0 : σ)
    (rs1 rs2 : List α)
    (hpp : ∀ (s : σ) (a b : α), ∃ s2,
      P2.process_record_pair s a b = Except.ok s2)
    (hb2 : ∀ s : σ, ∃ s2, P2.on_batch_complete s = Except.ok s2) :
    (run_paired_worker_thread P2 (fun _ => (rs1, rs2)) t0 [some 0]).1
      = (rs1.zip rs2).map WorkerEvent.processRecord
        ++ [WorkerEvent.onBatchComplete] ∧
    ((run_paired_worker_thread P2 (fun _ => (rs1, rs2)) t0
      [some 0]).1).countP isProcessRecord = min rs1.length rs2.length ∧
    ∀ (i : Nat) (a b : α), rs1[i]? = some a → rs2[i]? = some b →
      (rs1.zip rs2)[i]? = some (a, b) := by
  have htrace := run_paired_worker_ok_trace P2 (fun _ => (rs1, rs2)) hpp hb2
    [some 0] t0
  have hflat : flatEvents (fun idx =>
      ((rs1, rs2).1.zip (rs1, rs2).2).map WorkerEvent.processRecord
        ++ [WorkerEvent.onBatchComplete]) (consumedIdxs [some 0])
      = (rs1.zip rs2).map WorkerEvent.processRecord
        ++ [WorkerEvent.onBatchComplete] := by
    simp [consumedIdxs, flatEvents]
  refine ⟨?_, ?_, fun i a b h1 h2 => zip_get_pair rs1 rs2 i a b h1 h2⟩
  · rw [htrace]
    exact hflat
  · rw [htrace, hflat]
    have hmap : ((rs1.zip rs2).map WorkerEvent.processRecord).countP
        isProcessRecord
        = ((rs1.zip rs2).map WorkerEvent.processRecord).length := by
      refine List.countP_eq_length.mpr ?_
      intro e he
      obtain ⟨p, _, rfl⟩ := List.mem_map.mp he
      simp [isProcessRecord]
    simp [List.countP_append, hmap, isProcessRecord, List.length_map,
      List.length_zip]

/-- Witness for C10: record sets of 5 and 3 records give exactly
`min 5 3 = 3` `process_record_pair` invocations. -/
theorem c10_paired_zip_min_witness :
    ((run_paired_worker_thread countingPairedProcessor
      (fun _ => ([1, 2, 3, 4, 5], [7, 8, 9])) 0 [some 0]).1).countP
      isProcessRecord = min 5 3 ∧ min 5 3 = 3 := by
  refine ⟨?_, by decide⟩
  exact (c10_paired_zip_min countingPairedProcessor 0 [1, 2, 3, 4, 5]
    [7, 8, 9] (fun s a b => ⟨s + 1, rfl⟩) (fun s => ⟨s, rfl⟩)).2.1

/-! ## Claim C5 -/

/-- Claim C5 (confirmed): for every `thread_count`, both entry points
allocate exactly `2 * thread_count` default-initialized batch slots (in
paired mode each slot holding two default record sets) and create the
hand-off queue as a bounded FIFO with capacity exactly `2 * thread_count`. -/
theorem c5_pool_allocation (β : Type) [Inhabited β] (numThreads : Nat) :
    (create_record_sets β numThreads).length = 2 * numThreads ∧
    (∀ s ∈ create_record_sets β numThreads, s = default) ∧
    (create_paired_record_sets β numThreads).length = 2 * numThreads ∧
    (∀ s ∈ create_paired_record_sets β numThreads, s = (default, default)) ∧
    process_parallel_queue_capacity numThreads = 2 * numThreads ∧
    process_parallel_paired_queue_capacity numThreads = 2 * numThreads := by
  refine ⟨?_, ?_, ?_, ?_, ?_, ?_⟩
  · simp [create_record_sets, Nat.mul_comm]
  · intro s hs
    obtain ⟨i, _, h⟩ := List.mem_map.mp hs
    exact h.symm
  · simp [create_paired_record_sets, Nat.mul_comm]
  · intro s hs
    obtain ⟨i, _, h⟩ := List.mem_map.mp hs
    exact h.symm
  · simp [process_parallel_queue_capacity, create_channels, Nat.mul_comm]
  · simp [process_parallel_paired_queue_capacity, create_channels,
      Nat.mul_comm]

/-! ## Claim C7 -/

/-- Claim C7: with `thread_count = 1` and a source parsed as the batches
`[0,1]`, `[2,3]`, `[4]` (`N = 5` records), the legal interleaving in which
the reader fills three batches before the worker first receives (possible
because the queue capacity `2 * T` equals the slot count, so the reader can
lap the queue and refill slot 0 while its first token is still queued)
completes the pipeline without any error, yet `process_record` runs only 4
times: the worker's record sequence is `[4, 2, 3, 4]` — batch `[0,1]` is
never processed and batch `[4]` is processed twice.  The schedule runs the
reader (step `0`) through fill/send cycles for batches 0, 1 and 2, then the
worker (step `1`) and reader alternately to completion. -/
theorem c7_reader_can_overwrite_unread_slot :
    (process_parallel_run 1 [[0, 1], [2, 3], [4]]
      [0, 0, 0, 0, 0, 1, 0, 0, 1, 0, 0, 1, 1]).rPhase = RPhase.done ∧
    (process_parallel_run 1 [[0, 1], [2, 3], [4]]
      [0, 0, 0, 0, 0, 1, 0, 0, 1, 0, 0, 1, 1]).workers
      = [(false, [4, 2, 3, 4])] ∧
    totalProcessed (process_parallel_run 1 [[0, 1], [2, 3], [4]]
      [0, 0, 0, 0, 0, 1, 0, 0, 1, 0, 0, 1, 1]) = 4 ∧
    totalRecords [[0, 1], [2, 3], [4]] = 5 ∧
    (process_parallel_run 1 [[0, 1], [2, 3], [4]]
      [0, 0, 1, 0, 0, 1, 0, 0, 1, 0, 0, 1, 1, 1, 1]).workers
      = [(false, [0, 1, 2, 3, 4])] := by
  decide

/-! ## Claim C9 -/

/-- Claim C9, counterexample: requesting the quality bytes of a FASTA
record via `ref_qual` does not halt the program — the implementation body
is `&[]`, so the call returns an empty byte slice. -/
theorem c9_counterexample :
    haltsImmediately (fasta_ref_qual ⟨[104, 49], [65, 67, 71]⟩) = false ∧
    fasta_ref_qual ⟨[104, 49], [65, 67, 71]⟩ = CallOutcome.value [] := by
  decide

/-- Claim C9 (amended): calling `get_thread_id` on a processor that keeps
the default implementation halts the program immediately (`unimplemented!`)
for both processor traits; but requesting quality bytes from a quality-less
(FASTA) record via `ref_qual` does not halt — it returns an empty byte
slice for every record. -/
theorem c9_protocol_violations :
    haltsImmediately ParallelProcessor_get_thread_id_default = true ∧
    haltsImmediately PairedParallelProcessor_get_thread_id_default = true ∧
    ∀ r : FastaRefRecord, fasta_ref_qual r = CallOutcome.value [] :=
  ⟨rfl, rfl, fun _ => rfl⟩

end SeqIOParallel
